import Mathlib

/-!
Verification of the auth/validation core of a small Flask backend
(`app/utils.py`, `app/routes.py`).  Strings are modelled as Lean `String`
(lists of characters); the handlers become pure functions over an explicit
store state.  All definitions are translated from the Python source; the
few definitions written from the specification text instead are marked so
in their doc comments.
-/

namespace DevSecOps

/-! ## `app/utils.py` : sanitize_input -/

/-- Characters stripped by Python `str.strip()` (ASCII whitespace:
space, tab, newline, carriage return, vertical tab, form feed). -/
def isPySpace (c : Char) : Bool :=
  c = ' ' || c = '\t' || c = '\n' || c = '\r' || c = Char.ofNat 11 || c = Char.ofNat 12

/-- Python `str.strip()`: drop leading and trailing whitespace. -/
def pyStrip (s : List Char) : List Char :=
  ((s.dropWhile isPySpace).reverse.dropWhile isPySpace).reverse

/-- Python `str.replace(old, rep)` for a single-character `old`:
substitute `rep` for every occurrence of the character. -/
def subst1 (old : Char) (rep : List Char) : List Char → List Char
  | [] => []
  | c :: cs => (if c = old then rep else [c]) ++ subst1 old rep cs

/-- Python `html.escape(s)` (quote=True): sequentially replaces
the five reserved characters, `&` first. -/
def html_escape (s : List Char) : List Char :=
  subst1 '\'' (String.data "&#x27;")
    (subst1 '"' (String.data "&quot;")
      (subst1 '>' (String.data "&gt;")
        (subst1 '<' (String.data "&lt;")
          (subst1 '&' (String.data "&amp;") s))))

/-- One pass of Python `str.replace(pat, "")` for a non-empty pattern
`p :: ps`: scan left to right, delete each (non-overlapping) occurrence.
`fuel` bounds the recursion; callers pass `fuel = s.length`, which is
always sufficient since every step consumes at least one character. -/
def removeOccF (p : Char) (ps : List Char) : Nat → List Char → List Char
  | 0, s => s
  | _ + 1, [] => []
  | fuel + 1, c :: cs =>
    if (p :: ps).isPrefixOf (c :: cs) then
      removeOccF p ps fuel (cs.drop ps.length)
    else
      c :: removeOccF p ps fuel cs

/-- Python `s.replace(pat, "")`. -/
def removeSub (pat : List Char) (s : List Char) : List Char :=
  match pat with
  | [] => s
  | p :: ps => removeOccF p ps s.length s

/-- The denylist `dangerous_chars = [';', '--', '/*', '*/', 'xp_', 'sp_']`. -/
def dangerous_chars : List (List Char) :=
  [[';'], ['-', '-'], ['/', '*'], ['*', '/'], ['x', 'p', '_'], ['s', 'p', '_']]

/-- The `for char in dangerous_chars: sanitized = sanitized.replace(char, '')`
loop of `sanitize_input`. -/
def stripDangerous (s : List Char) : List Char :=
  dangerous_chars.foldl (fun acc pat => removeSub pat acc) s

/-- `sanitize_input` from `app/utils.py`: empty input returns `""`
(Python truthiness guard); otherwise strip, HTML-escape, then delete the
denylist substrings in order. -/
def sanitize_input (s : String) : String :=
  if s = "" then ""
  else String.mk (stripDangerous (html_escape (pyStrip s.data)))

/-- `sanitize_input` as called on a possibly-absent (`None`) argument:
Python `not input_string` is true for `None` as well as `""`. -/
def sanitize_input_opt : Option String → String
  | none => ""
  | some s => sanitize_input s

/-! ## `app/utils.py` : validate_email -/

/-- The regex local-part character class `[a-zA-Z0-9._%+-]`. -/
def isLocalChar (c : Char) : Bool :=
  c.isAlpha || c.isDigit || c = '.' || c = '_' || c = '%' || c = '+' || c = '-'

/-- The regex domain character class `[a-zA-Z0-9.-]`. -/
def isDomainChar (c : Char) : Bool :=
  c.isAlpha || c.isDigit || c = '.' || c = '-'

/-- Split at the first occurrence of `c`: `some (before, after)`. -/
def breakAt (c : Char) : List Char → Option (List Char × List Char)
  | [] => none
  | x :: xs =>
    if x = c then some ([], xs)
    else
      match breakAt c xs with
      | some (a, b) => some (x :: a, b)
      | none => none

/-- Split at the last occurrence of `c`: `some (before, after)`. -/
def breakAtLast (c : Char) : List Char → Option (List Char × List Char)
  | [] => none
  | x :: xs =>
    match breakAtLast c xs with
    | some (a, b) => some (x :: a, b)
    | none => if x = c then some ([], xs) else none

/-- Python `re`'s `$` anchor outside MULTILINE mode also matches just
before one final newline; equivalently the pattern may ignore a single
trailing `'\n'`. -/
def dropFinalNewline : List Char → List Char
  | [] => []
  | [c] => if c = '\n' then [] else [c]
  | c :: cs => c :: dropFinalNewline cs

/-- The anchored pattern `[a-zA-Z0-9._%+-]+@[a-zA-Z0-9.-]+\.[a-zA-Z]\x7b2,\x7d`
matched against the whole character list.  Since `@` is in neither class,
the local part ends at the first `@`; since the TLD class `[a-zA-Z]`
excludes `.`, the separating dot is the last `.` after the `@`. -/
def emailDomain (l rest : List Char) : Bool :=
  match breakAtLast '.' rest with
  | none => false
  | some (d, t) =>
    !l.isEmpty && l.all isLocalChar &&
      !d.isEmpty && d.all isDomainChar &&
      decide (2 ≤ t.length) && t.all Char.isAlpha

def emailCore (cs : List Char) : Bool :=
  match breakAt '@' cs with
  | none => false
  | some (l, rest) => emailDomain l rest

/-- `validate_email` from `app/utils.py`:
`re.match(r'^[a-zA-Z0-9._%+-]+@[a-zA-Z0-9.-]+\.[a-zA-Z]\x7b2,\x7d$', email)`,
the final-newline allowance coming from the `$` anchor. -/
def validate_email (s : String) : Bool :=
  emailCore (dropFinalNewline s.data)

/-! ## `app/utils.py` : validate_password -/

/-- `re.search(r'[A-Z]', p)`. -/
def hasUpper (p : List Char) : Bool := p.any fun c => 'A' ≤ c && c ≤ 'Z'

/-- `re.search(r'[a-z]', p)`. -/
def hasLower (p : List Char) : Bool := p.any fun c => 'a' ≤ c && c ≤ 'z'

/-- `re.search(r'\d', p)` on ASCII input. -/
def hasDigit (p : List Char) : Bool := p.any Char.isDigit

/-- The special-character class of the password policy. -/
def specialChars : List Char :=
  ['!', '@', '#', '$', '%', '^', '&', '*', '(', ')', ',', '.', '?', '"', ':',
   '\x7b', '\x7d', '|', '<', '>']

/-- `re.search` over the special-character class. -/
def hasSpecial (p : List Char) : Bool := p.any fun c => specialChars.contains c

/-- `validate_password` from `app/utils.py`: checks the five rules in
order and reports the first failure. -/
def validate_password (p : String) : Bool × String :=
  if p.length < 8 then
    (false, "Password must be at least 8 characters long")
  else if !hasUpper p.data then
    (false, "Password must contain at least one uppercase letter")
  else if !hasLower p.data then
    (false, "Password must contain at least one lowercase letter")
  else if !hasDigit p.data then
    (false, "Password must contain at least one digit")
  else if !hasSpecial p.data then
    (false, "Password must contain at least one special character")
  else
    (true, "Password is valid")

/-! ## `app/routes.py` : data model and handlers

The relational store is an external collaborator here (spec §1 treats it
as "a simple key-value user record store reachable by email or id"), and
`app/models.py` is not among the available sources. -/

/-- Modelled from the spec: the `User` record of `app/models.py` (spec §3):
`id` assigned at creation, `email` unique key, `username` display name,
`password` the stored hash, `created_at` set at creation. -/
structure User where
  id : Nat
  email : String
  password : String
  username : String
  created_at : Nat
deriving DecidableEq, Repr

/-- Modelled from the spec: the store, a list of `User` records plus the
next id to assign at insertion. -/
structure Db where
  users : List User
  nextId : Nat
deriving DecidableEq, Repr

/-- `User.query.filter_by(email=e).first()`. -/
def findByEmail (db : Db) (e : String) : Option User :=
  db.users.find? fun u => u.email == e

/-- `User.query.get(uid)`. -/
def findById (db : Db) (uid : Nat) : Option User :=
  db.users.find? fun u => u.id == uid

/-- A parsed JSON request body; a `none` field stands for an absent key. -/
structure ReqData where
  email? : Option String
  password? : Option String
  username? : Option String
deriving DecidableEq, Repr

/-- The JSON bodies the handlers build. -/
inductive Resp where
  | err (msg : String)
  | regOk (userId : Nat)
  | loginOk (token : String) (id : Nat) (email : String) (username : String)
  | profileOk (id : Nat) (email : String) (username : String)
deriving DecidableEq, Repr

/-- `email.split('@')[0]`. -/
def localPart (e : String) : String := (e.splitOn "@").headD ""

/-- `register` from `app/routes.py`.  `hash` abstracts
`generate_password_hash` (external, salted) and `now` the creation
timestamp; `body = none` models a missing/null JSON body.  Returns
`(status, response)` and the resulting store. -/
def register (hash : String → String) (now : Nat) (db : Db)
    (body : Option ReqData) : (Nat × Resp) × Db :=
  match body with
  | none => ((400, .err "Email and password required"), db)
  | some d =>
    match d.email?, d.password? with
    | some em, some pw =>
      let email := sanitize_input em
      if validate_email email then
        match validate_password pw with
        | (false, msg) => ((400, .err msg), db)
        | (true, _) =>
          match findByEmail db email with
          | some _ => ((400, .err "User already exists"), db)
          | none =>
            let u : User :=
              { id := db.nextId, email := email, password := hash pw,
                username := d.username?.getD (localPart email),
                created_at := now }
            ((201, .regOk u.id), { users := db.users ++ [u], nextId := db.nextId + 1 })
      else ((400, .err "Invalid email format"), db)
    | _, _ => ((400, .err "Email and password required"), db)

/-- `login` from `app/routes.py`.  `check` abstracts
`check_password_hash` and `mkTok` abstracts `create_access_token`.
The `not user or not check_password_hash(...)` test is split into the
two match arms, both returning the same 401 body. -/
def login (check : String → String → Bool) (mkTok : Nat → String)
    (db : Db) (body : Option ReqData) : Nat × Resp :=
  match body with
  | none => (400, .err "Email and password required")
  | some d =>
    match d.email?, d.password? with
    | some em, some pw =>
      let email := sanitize_input em
      match findByEmail db email with
      | none => (401, .err "Invalid credentials")
      | some u =>
        if check u.password pw then
          (200, .loginOk (mkTok u.id) u.id u.email u.username)
        else (401, .err "Invalid credentials")
    | _, _ => (400, .err "Email and password required")

/-- The ORM mutation `user.username = username` followed by `commit`. -/
def setUsername (db : Db) (uid : Nat) (name : String) : Db :=
  { db with
    users := db.users.map fun v => if v.id == uid then { v with username := name } else v }

/-- `update_profile` from `app/routes.py`.  `uid` is the JWT identity.
A `none` body raises `TypeError` at `'username' in data`, which the
handler's `except` turns into a rollback and a 500. -/
def update_profile (db : Db) (uid : Nat) (body : Option ReqData) :
    (Nat × Resp) × Db :=
  match findById db uid with
  | none => ((404, .err "User not found"), db)
  | some u =>
    match body with
    | none => ((500, .err "Failed to update profile"), db)
    | some d =>
      match d.username? with
      | some raw =>
        let username := sanitize_input raw
        if username.length < 3 then
          ((400, .err "Username must be at least 3 characters"), db)
        else
          ((200, .profileOk u.id u.email username), setUsername db uid username)
      | none => ((200, .profileOk u.id u.email u.username), db)

/-! ## Specification-side predicates (written from the spec text, for
comparison with the code-derived definitions above) -/

/-- The spec's sanitization pipeline read off §4.2: trim, HTML-escape the
five reserved characters, then strip the denylist substrings in order. -/
def sanitize_spec (s : String) : String :=
  String.mk (stripDangerous (html_escape (pyStrip s.data)))

/-- Substring test (Python `pat in s`). -/
def containsSub (pat : List Char) : List Char → Bool
  | [] => pat.isPrefixOf ([] : List Char)
  | c :: cs => pat.isPrefixOf (c :: cs) || containsSub pat cs

/-- The email shape of the claim: non-empty local part over the local
charset, `@`, non-empty domain over the domain charset, `.`, and a TLD of
at least two ASCII letters — with no extra characters. -/
def EmailShape (cs : List Char) : Prop :=
  ∃ l d t : List Char,
    cs = l ++ '@' :: (d ++ '.' :: t) ∧
    l ≠ [] ∧ (∀ c ∈ l, isLocalChar c = true) ∧
    d ≠ [] ∧ (∀ c ∈ d, isDomainChar c = true) ∧
    2 ≤ t.length ∧ (∀ c ∈ t, c.isAlpha = true)

/-- Password rule: contains an uppercase ASCII letter. -/
def HasUpperP (p : List Char) : Prop := ∃ c ∈ p, 'A' ≤ c ∧ c ≤ 'Z'

/-- Password rule: contains a lowercase ASCII letter. -/
def HasLowerP (p : List Char) : Prop := ∃ c ∈ p, 'a' ≤ c ∧ c ≤ 'z'

/-- Password rule: contains a digit. -/
def HasDigitP (p : List Char) : Prop := ∃ c ∈ p, c.isDigit = true

/-- Password rule: contains a character of the special set. -/
def HasSpecialP (p : List Char) : Prop := ∃ c ∈ p, c ∈ specialChars

instance (p : List Char) : Decidable (HasUpperP p) := by unfold HasUpperP; infer_instance

instance (p : List Char) : Decidable (HasLowerP p) := by unfold HasLowerP; infer_instance

instance (p : List Char) : Decidable (HasDigitP p) := by unfold HasDigitP; infer_instance

instance (p : List Char) : Decidable (HasSpecialP p) := by unfold HasSpecialP; infer_instance

/-! ## Lemmas about the sanitizer -/

theorem mem_removeOccF {x p : Char} {ps : List Char} :
    ∀ fuel s, x ∈ removeOccF p ps fuel s → x ∈ s := by
  intro fuel
  induction fuel with
  | zero => intro s h; simpa [removeOccF] using h
  | succ n ih =>
    intro s h
    cases s with
    | nil => simpa [removeOccF] using h
    | cons c cs =>
      rw [removeOccF] at h
      split at h
      · exact List.mem_cons_of_mem c (List.mem_of_mem_drop (ih _ h))
      · rcases List.mem_cons.mp h with h | h
        · exact h ▸ List.mem_cons_self c cs
        · exact List.mem_cons_of_mem c (ih _ h)

theorem mem_removeSub {x : Char} {pat s : List Char} (h : x ∈ removeSub pat s) :
    x ∈ s := by
  cases pat with
  | nil => exact h
  | cons p ps => exact mem_removeOccF _ _ h

theorem not_mem_removeOccF_single (c : Char) :
    ∀ fuel s, s.length ≤ fuel → c ∉ removeOccF c [] fuel s := by
  intro fuel
  induction fuel with
  | zero =>
    intro s hs
    have : s = [] := List.eq_nil_of_length_eq_zero (Nat.le_zero.mp hs)
    subst this
    simp [removeOccF]
  | succ n ih =>
    intro s hs
    cases s with
    | nil => simp [removeOccF]
    | cons x xs =>
      rw [removeOccF]
      split
      · exact ih _ (by simpa using Nat.le_of_succ_le_succ hs)
      · next hcond =>
        have hne : ¬(c = x) := by
          intro hcx
          exact hcond (by simp [List.isPrefixOf, hcx])
        intro hmem
        rcases List.mem_cons.mp hmem with h | h
        · exact hne h
        · exact ih _ (Nat.le_of_succ_le_succ hs) h

theorem not_mem_removeSub_single (c : Char) (s : List Char) :
    c ∉ removeSub [c] s :=
  not_mem_removeOccF_single c s.length s Nat.le.refl

theorem mem_mk_data (l : List Char) (x : Char) : x ∈ (String.mk l).data ↔ x ∈ l :=
  Iff.rfl

theorem not_mem_stripDangerous_semicolon (l : List Char) : ';' ∉ stripDangerous l := by
  rw [stripDangerous]
  simp only [dangerous_chars, List.foldl_cons, List.foldl_nil]
  intro hmem
  exact not_mem_removeSub_single ';' _
    (mem_removeSub (mem_removeSub (mem_removeSub (mem_removeSub (mem_removeSub hmem)))))

/-- C8: sanitize is total on empty or absent input — the empty string and
an absent (`None`) input both sanitize to exactly the empty string. -/
theorem sanitize_input_empty :
    sanitize_input_opt none = "" ∧ sanitize_input_opt (some "") = "" ∧
      sanitize_input "" = "" := by
  refine ⟨rfl, ?_, ?_⟩ <;> decide

set_option maxHeartbeats 2000000 in
/-- C5: `sanitize_input` is exactly the pipeline trim, then HTML-escape of
the five reserved characters, then ordered removal of the denylist
substrings; and its output on `"<script>alert(1)</script>"` contains no
raw `"<script>"` substring. -/
theorem sanitize_input_pipeline :
    (∀ s : String, sanitize_input s = sanitize_spec s) ∧
      containsSub (String.data "<script>")
        (String.data (sanitize_input "<script>alert(1)</script>")) = false := by
  refine ⟨fun s => ?_, by decide⟩
  by_cases h : s = ""
  · subst h; decide
  · rw [sanitize_input, if_neg h, sanitize_spec]

set_option maxHeartbeats 2000000 in
/-- C9: no output of `sanitize_input` contains a semicolon — the `';'`
removal runs over the already-HTML-escaped text and later passes only
delete characters — so in particular `sanitize_input "&" = "&amp"`, an
entity with its terminator removed. -/
theorem sanitize_input_no_semicolon :
    (∀ s : String, ';' ∉ (sanitize_input s).data) ∧ sanitize_input "&" = "&amp" := by
  refine ⟨fun s => ?_, by decide⟩
  by_cases h : s = ""
  · subst h; simp [sanitize_input]
  · rw [sanitize_input, if_neg h]
    simp only [mem_mk_data]
    exact not_mem_stripDangerous_semicolon _

/-! ## Lemmas about the password policy -/

theorem hasUpper_iff (p : List Char) : hasUpper p = true ↔ HasUpperP p := by
  simp [hasUpper, HasUpperP, List.any_eq_true]

theorem hasLower_iff (p : List Char) : hasLower p = true ↔ HasLowerP p := by
  simp [hasLower, HasLowerP, List.any_eq_true]

theorem hasDigit_iff (p : List Char) : hasDigit p = true ↔ HasDigitP p := by
  simp [hasDigit, HasDigitP, List.any_eq_true]

theorem hasSpecial_iff (p : List Char) : hasSpecial p = true ↔ HasSpecialP p := by
  simp [hasSpecial, HasSpecialP, List.any_eq_true]

theorem hasUpper_eq_false (p : List Char) (h : ¬ HasUpperP p) : hasUpper p = false := by
  cases hv : hasUpper p
  · rfl
  · exact absurd ((hasUpper_iff p).mp hv) h

theorem hasLower_eq_false (p : List Char) (h : ¬ HasLowerP p) : hasLower p = false := by
  cases hv : hasLower p
  · rfl
  · exact absurd ((hasLower_iff p).mp hv) h

theorem hasDigit_eq_false (p : List Char) (h : ¬ HasDigitP p) : hasDigit p = false := by
  cases hv : hasDigit p
  · rfl
  · exact absurd ((hasDigit_iff p).mp hv) h

theorem hasSpecial_eq_false (p : List Char) (h : ¬ HasSpecialP p) : hasSpecial p = false := by
  cases hv : hasSpecial p
  · rfl
  · exact absurd ((hasSpecial_iff p).mp hv) h

/-- C3: `validate_password` accepts exactly the passwords satisfying all
five policy rules, and on rejection reports the first violated rule in
the order length, uppercase, lowercase, digit, special. -/
theorem validate_password_rules (p : String) :
    ((validate_password p).1 = true ↔
      (8 ≤ p.length ∧ HasUpperP p.data ∧ HasLowerP p.data ∧ HasDigitP p.data ∧
        HasSpecialP p.data))
    ∧ (p.length < 8 →
        validate_password p = (false, "Password must be at least 8 characters long"))
    ∧ (8 ≤ p.length → ¬ HasUpperP p.data →
        validate_password p = (false, "Password must contain at least one uppercase letter"))
    ∧ (8 ≤ p.length → HasUpperP p.data → ¬ HasLowerP p.data →
        validate_password p = (false, "Password must contain at least one lowercase letter"))
    ∧ (8 ≤ p.length → HasUpperP p.data → HasLowerP p.data → ¬ HasDigitP p.data →
        validate_password p = (false, "Password must contain at least one digit"))
    ∧ (8 ≤ p.length → HasUpperP p.data → HasLowerP p.data → HasDigitP p.data →
        ¬ HasSpecialP p.data →
        validate_password p = (false, "Password must contain at least one special character")) := by
  refine ⟨⟨?_, ?_⟩, ?_, ?_, ?_, ?_, ?_⟩
  · intro h
    by_cases h1 : p.length < 8
    · simp [validate_password, h1] at h
    · by_cases h2 : hasUpper p.data
      · by_cases h3 : hasLower p.data
        · by_cases h4 : hasDigit p.data
          · by_cases h5 : hasSpecial p.data
            · exact ⟨by omega, (hasUpper_iff _).mp h2, (hasLower_iff _).mp h3,
                (hasDigit_iff _).mp h4, (hasSpecial_iff _).mp h5⟩
            · simp [validate_password, h1, h2, h3, h4, h5] at h
          · simp [validate_password, h1, h2, h3, h4] at h
        · simp [validate_password, h1, h2, h3] at h
      · simp [validate_password, h1, h2] at h
  · rintro ⟨a1, a2, a3, a4, a5⟩
    simp [validate_password, Nat.not_lt.mpr a1, (hasUpper_iff _).mpr a2,
      (hasLower_iff _).mpr a3, (hasDigit_iff _).mpr a4, (hasSpecial_iff _).mpr a5]
  · intro h1
    simp [validate_password, h1]
  · intro h1 h2
    simp [validate_password, Nat.not_lt.mpr h1, hasUpper_eq_false _ h2]
  · intro h1 h2 h3
    simp [validate_password, Nat.not_lt.mpr h1, (hasUpper_iff _).mpr h2,
      hasLower_eq_false _ h3]
  · intro h1 h2 h3 h4
    simp [validate_password, Nat.not_lt.mpr h1, (hasUpper_iff _).mpr h2,
      (hasLower_iff _).mpr h3, hasDigit_eq_false _ h4]
  · intro h1 h2 h3 h4 h5
    simp [validate_password, Nat.not_lt.mpr h1, (hasUpper_iff _).mpr h2,
      (hasLower_iff _).mpr h3, (hasDigit_iff _).mpr h4, hasSpecial_eq_false _ h5]

/-- Witness for C3: the length rule fires first on `"abc"`, the uppercase
rule on `"abcdefg1"`, and `"Abc12345!"` satisfies all five rules. -/
theorem validate_password_rules_witness :
    validate_password "abc" = (false, "Password must be at least 8 characters long")
    ∧ validate_password "abcdefg1" =
        (false, "Password must contain at least one uppercase letter")
    ∧ (validate_password "Abc12345!").1 = true :=
  ⟨(validate_password_rules "abc").2.1 (by decide),
   (validate_password_rules "abcdefg1").2.2.1 (by decide) (by decide),
   ((validate_password_rules "Abc12345!").1).mpr
     ⟨by decide, by decide, by decide, by decide, by decide⟩⟩

/-! ## Lemmas about email validation -/

theorem breakAt_eq_some (c : Char) :
    ∀ s a b, breakAt c s = some (a, b) → s = a ++ c :: b ∧ c ∉ a := by
  intro s
  induction s with
  | nil => intro a b h; simp [breakAt] at h
  | cons x xs ih =>
    intro a b h
    rw [breakAt] at h
    split at h
    · next hx =>
      injection h with h'
      injection h' with h1 h2
      subst h1; subst h2
      exact ⟨by simp [hx], List.not_mem_nil c⟩
    · next hx =>
      cases hb : breakAt c xs with
      | none => rw [hb] at h; simp at h
      | some p =>
        obtain ⟨a', b'⟩ := p
        rw [hb] at h
        injection h with h'
        injection h' with h1 h2
        subst h1; subst h2
        obtain ⟨hxs, hna⟩ := ih a' b' hb
        refine ⟨by rw [List.cons_append, ← hxs], ?_⟩
        intro hmem
        rcases List.mem_cons.mp hmem with h | h
        · exact hx h.symm
        · exact hna h

theorem breakAt_append (c : Char) (a b : List Char) (ha : c ∉ a) :
    breakAt c (a ++ c :: b) = some (a, b) := by
  induction a with
  | nil => simp [breakAt]
  | cons x a' ih =>
    have hx : ¬ x = c := fun h => ha (h ▸ List.mem_cons_self x a')
    have ha' : c ∉ a' := fun h => ha (List.mem_cons_of_mem x h)
    rw [List.cons_append, breakAt, if_neg hx, ih ha']

theorem breakAtLast_eq_none (c : Char) :
    ∀ s, breakAtLast c s = none → c ∉ s := by
  intro s
  induction s with
  | nil => intro _ _; simp_all
  | cons x xs ih =>
    intro h
    rw [breakAtLast] at h
    cases hb : breakAtLast c xs with
    | some p => rw [hb] at h; simp at h
    | none =>
      rw [hb] at h
      by_cases hx : x = c
      · rw [if_pos hx] at h; simp at h
      · intro hmem
        rcases List.mem_cons.mp hmem with h' | h'
        · exact hx h'.symm
        · exact ih hb h'

theorem breakAtLast_none_of_not_mem (c : Char) :
    ∀ s, c ∉ s → breakAtLast c s = none := by
  intro s
  induction s with
  | nil => intro _; rfl
  | cons x xs ih =>
    intro h
    have hx : ¬ x = c := fun h' => h (h' ▸ List.mem_cons_self x xs)
    have hxs : c ∉ xs := fun h' => h (List.mem_cons_of_mem x h')
    rw [breakAtLast, ih hxs, if_neg hx]

theorem breakAtLast_eq_some (c : Char) :
    ∀ s a b, breakAtLast c s = some (a, b) → s = a ++ c :: b ∧ c ∉ b := by
  intro s
  induction s with
  | nil => intro a b h; simp [breakAtLast] at h
  | cons x xs ih =>
    intro a b h
    rw [breakAtLast] at h
    cases hb : breakAtLast c xs with
    | some p =>
      obtain ⟨a', b'⟩ := p
      rw [hb] at h
      injection h with h'
      injection h' with h1 h2
      subst h1; subst h2
      obtain ⟨hxs, hnb⟩ := ih a' b' hb
      exact ⟨by rw [List.cons_append, ← hxs], hnb⟩
    | none =>
      rw [hb] at h
      by_cases hx : x = c
      · rw [if_pos hx] at h
        injection h with h'
        injection h' with h1 h2
        subst h1; subst h2
        exact ⟨by simp [hx], breakAtLast_eq_none c xs hb⟩
      · rw [if_neg hx] at h; simp at h

theorem breakAtLast_append (c : Char) (a b : List Char) (hb : c ∉ b) :
    breakAtLast c (a ++ c :: b) = some (a, b) := by
  induction a with
  | nil =>
    rw [List.nil_append, breakAtLast, breakAtLast_none_of_not_mem c b hb, if_pos rfl]
  | cons x a' ih =>
    rw [List.cons_append, breakAtLast, ih]

theorem dropFinalNewline_concat (cs : List Char) :
    dropFinalNewline (cs ++ ['\n']) = cs := by
  induction cs with
  | nil => simp [dropFinalNewline]
  | cons c cs ih =>
    cases cs with
    | nil => simp [dropFinalNewline]
    | cons x xs =>
      rw [List.cons_append]
      show c :: dropFinalNewline ((x :: xs) ++ ['\n']) = c :: x :: xs
      rw [ih]

theorem dropFinalNewline_cases (cs : List Char) :
    dropFinalNewline cs = cs ∨ cs = dropFinalNewline cs ++ ['\n'] := by
  induction cs with
  | nil => exact Or.inl rfl
  | cons c cs ih =>
    cases cs with
    | nil =>
      by_cases h : c = '\n'
      · subst h
        right
        simp [dropFinalNewline]
      · left
        simp [dropFinalNewline, h]
    | cons x xs =>
      have hstep : dropFinalNewline (c :: x :: xs) = c :: dropFinalNewline (x :: xs) := rfl
      rcases ih with h | h
      · left; rw [hstep, h]
      · right; rw [hstep, List.cons_append, ← h]

theorem emailShape_no_newline {cs : List Char} (h : EmailShape cs) : '\n' ∉ cs := by
  obtain ⟨l, d, t, rfl, _, hl, _, hd, _, ht⟩ := h
  intro hmem
  rcases List.mem_append.mp hmem with hm | hm
  · exact absurd (hl _ hm) (by decide)
  · rcases List.mem_cons.mp hm with hm | hm
    · exact absurd hm (by decide)
    · rcases List.mem_append.mp hm with hm | hm
      · exact absurd (hd _ hm) (by decide)
      · rcases List.mem_cons.mp hm with hm | hm
        · exact absurd hm (by decide)
        · exact absurd (ht _ hm) (by decide)

theorem emailCore_iff (cs : List Char) : emailCore cs = true ↔ EmailShape cs := by
  constructor
  · intro h
    cases hb : breakAt '@' cs with
    | none => simp [emailCore, hb] at h
    | some p =>
      obtain ⟨l, rest⟩ := p
      simp only [emailCore, hb] at h
      cases hbl : breakAtLast '.' rest with
      | none => simp [emailDomain, hbl] at h
      | some q =>
        obtain ⟨d, t⟩ := q
        simp only [emailDomain, hbl, Bool.and_eq_true, List.all_eq_true,
          decide_eq_true_eq, Bool.not_eq_true', List.isEmpty_eq_false] at h
        obtain ⟨⟨⟨⟨⟨hl0, hl⟩, hd0⟩, hd⟩, ht2⟩, ht⟩ := h
        obtain ⟨hcs, -⟩ := breakAt_eq_some '@' cs l rest hb
        obtain ⟨hrest, -⟩ := breakAtLast_eq_some '.' rest d t hbl
        refine ⟨l, d, t, ?_, ?_, hl, ?_, hd, ht2, ht⟩
        · rw [hcs, hrest]
        · simpa using hl0
        · simpa using hd0
  · rintro ⟨l, d, t, rfl, hl0, hl, hd0, hd, ht2, ht⟩
    have hnotl : '@' ∉ l := fun hm => absurd (hl _ hm) (by decide)
    have hnott : '.' ∉ t := fun hm => absurd (ht _ hm) (by decide)
    simp only [emailCore, breakAt_append '@' l (d ++ '.' :: t) hnotl,
      emailDomain, breakAtLast_append '.' d t hnott]
    simp [hl0, hd0, ht2]
    exact ⟨⟨hl, hd⟩, ht⟩

/-- C7 counterexample: `validate_email` accepts `"a@b.co\n"`, a string
that does not have the claimed local-part `@` domain `.` TLD shape (its
trailing newline lies outside every character class of the pattern). -/
theorem validate_email_newline_cex :
    validate_email "a@b.co\n" = true ∧ ¬ EmailShape (String.data "a@b.co\n") := by
  refine ⟨by decide, fun h => ?_⟩
  exact emailShape_no_newline h (by decide)

/-- C7 (amended): `validate_email` returns true iff the string, possibly
after removing one final newline (an artifact of the regex `$` anchor),
consists of a non-empty local part over letters, digits and `._%+-`,
an `@`, a non-empty domain over letters, digits, `.` and `-`, a `.`,
and a TLD of at least two ASCII letters. -/
theorem validate_email_iff (s : String) :
    validate_email s = true ↔
      (EmailShape s.data ∨ ∃ cs, s.data = cs ++ ['\n'] ∧ EmailShape cs) := by
  have hve : validate_email s = emailCore (dropFinalNewline s.data) := rfl
  rw [hve, emailCore_iff]
  constructor
  · intro h
    rcases dropFinalNewline_cases s.data with hc | hc
    · exact Or.inl (hc ▸ h)
    · exact Or.inr ⟨dropFinalNewline s.data, hc, h⟩
  · rintro (h | ⟨cs, hcs, h⟩)
    · rcases dropFinalNewline_cases s.data with hc | hc
      · rwa [hc]
      · exact absurd (List.mem_append_right _ (List.mem_singleton.mpr rfl))
          (fun hm => emailShape_no_newline h (hc ▸ hm))
    · rw [hcs, dropFinalNewline_concat]
      exact h

/-- Witness for C7 (amended): `"a@b.com"` is accepted and has the shape. -/
theorem validate_email_iff_witness :
    EmailShape (String.data "a@b.com") ∨
      ∃ cs, String.data "a@b.com" = cs ++ ['\n'] ∧ EmailShape cs :=
  (validate_email_iff "a@b.com").mp (by decide)

/-! ## Lemmas about the handlers -/

theorem find?_append_of_none {α : Type} (p : α → Bool) (l₁ l₂ : List α)
    (h : l₁.find? p = none) : (l₁ ++ l₂).find? p = l₂.find? p := by
  rw [List.find?_append, h, Option.none_or]

/-- The record inserted by a successful `register`. -/
theorem register_success (hash : String → String) (now : Nat) (db : Db)
    (em pw : String) (uo : Option String)
    (hv : validate_email (sanitize_input em) = true)
    (hp : (validate_password pw).1 = true)
    (hf : findByEmail db (sanitize_input em) = none) :
    register hash now db (some ⟨some em, some pw, uo⟩) =
      ((201, Resp.regOk db.nextId),
        ⟨db.users ++
          [{ id := db.nextId, email := sanitize_input em, password := hash pw,
             username := uo.getD (localPart (sanitize_input em)),
             created_at := now }], db.nextId + 1⟩) := by
  rcases hpw : validate_password pw with ⟨b, m⟩
  rw [hpw] at hp
  subst hp
  simp [register, hv, hpw, hf]

/-- C1: registration is atomic on failure — every run of `register`
either succeeds with 201 or fails with 400 leaving the store unchanged; a
missing body or missing email/password field yields the 400 "Email and
password required" outcome with the store unchanged; an invalid email, a
weak password or an already-registered email yields 400 with the store
unchanged; and after a 201 for some body, re-running `register` with
that same body fails with 400 "User already exists" and leaves the store
unchanged. -/
theorem register_atomic (hash : String → String) (now : Nat) (db : Db)
    (body : Option ReqData) :
    ((register hash now db body).1.1 = 201 ∨
      ((register hash now db body).1.1 = 400 ∧ (register hash now db body).2 = db))
    ∧ ((body = none ∨ ∃ d, body = some d ∧ (d.email? = none ∨ d.password? = none)) →
        register hash now db body = ((400, Resp.err "Email and password required"), db))
    ∧ (∀ d em pw, body = some d → d.email? = some em → d.password? = some pw →
        (validate_email (sanitize_input em) = false ∨
          (validate_password pw).1 = false ∨
          (findByEmail db (sanitize_input em)).isSome = true) →
        (register hash now db body).1.1 = 400 ∧ (register hash now db body).2 = db)
    ∧ ((register hash now db body).1.1 = 201 →
        register hash now (register hash now db body).2 body =
          ((400, Resp.err "User already exists"), (register hash now db body).2)) := by
  rcases body with _ | ⟨eo, po, uo⟩
  · refine ⟨Or.inr ⟨rfl, rfl⟩, fun _ => rfl, ?_, fun h => by simp [register] at h⟩
    rintro d em pw h
    exact absurd h (by simp)
  · rcases eo with _ | em
    · refine ⟨?_, ?_, ?_, ?_⟩
      · cases po <;> exact Or.inr ⟨rfl, rfl⟩
      · intro _; cases po <;> rfl
      · rintro d em pw hbody he hp hcond
        injection hbody with hbody
        subst hbody
        simp at he
      · cases po <;> exact fun h => by simp [register] at h
    · rcases po with _ | pw
      · refine ⟨Or.inr ⟨rfl, rfl⟩, fun _ => rfl, ?_, fun h => by simp [register] at h⟩
        rintro d em' pw hbody he hp hcond
        injection hbody with hbody
        subst hbody
        simp at hp
      · have hmiss : ¬ ((some (⟨some em, some pw, uo⟩ : ReqData) = none) ∨
            ∃ d, some (⟨some em, some pw, uo⟩ : ReqData) = some d ∧
              (d.email? = none ∨ d.password? = none)) := by
          rintro (h | ⟨d, hd, h⟩)
          · simp at h
          · injection hd with hd
            subst hd
            simp at h
        by_cases hv : validate_email (sanitize_input em) = true
        · rcases hpw : validate_password pw with ⟨b, m⟩
          cases b with
          | false =>
            have hr : register hash now db (some ⟨some em, some pw, uo⟩) =
                ((400, Resp.err m), db) := by simp [register, hv, hpw]
            rw [hr]
            exact ⟨Or.inr ⟨rfl, rfl⟩, fun h => absurd h hmiss,
              fun _ _ _ _ _ _ _ => ⟨rfl, rfl⟩, fun h => by simp at h⟩
          | true =>
            cases hf : findByEmail db (sanitize_input em) with
            | some u =>
              have hr : register hash now db (some ⟨some em, some pw, uo⟩) =
                  ((400, Resp.err "User already exists"), db) := by
                simp [register, hv, hpw, hf]
              rw [hr]
              exact ⟨Or.inr ⟨rfl, rfl⟩, fun h => absurd h hmiss,
                fun _ _ _ _ _ _ _ => ⟨rfl, rfl⟩, fun h => by simp at h⟩
            | none =>
              have hsucc := register_success hash now db em pw uo hv (by rw [hpw]) hf
              rw [hsucc]
              refine ⟨Or.inl rfl, fun h => absurd h hmiss, ?_, fun _ => ?_⟩
              · rintro d em' pw' hbody he hp hcond
                injection hbody with hbody
                subst hbody
                simp only [ReqData.email?] at he
                simp only [ReqData.password?] at hp
                injection he with he
                injection hp with hp
                subst he; subst hp
                rcases hcond with hc | hc | hc
                · rw [hv] at hc; cases hc
                · rw [hpw] at hc; cases hc
                · rw [hf] at hc; cases hc
              · have hfind0 : List.find? (fun u => u.email == sanitize_input em)
                    db.users = none := by
                  simpa [findByEmail] using hf
                have hf2 : findByEmail
                    ⟨db.users ++
                      [{ id := db.nextId, email := sanitize_input em, password := hash pw,
                         username := uo.getD (localPart (sanitize_input em)),
                         created_at := now }], db.nextId + 1⟩ (sanitize_input em) =
                    some { id := db.nextId, email := sanitize_input em, password := hash pw,
                           username := uo.getD (localPart (sanitize_input em)),
                           created_at := now } := by
                  simp only [findByEmail]
                  rw [find?_append_of_none _ _ _ hfind0]
                  simp
                show register hash now
                    ⟨db.users ++
                      [{ id := db.nextId, email := sanitize_input em, password := hash pw,
                         username := uo.getD (localPart (sanitize_input em)),
                         created_at := now }], db.nextId + 1⟩
                    (some ⟨some em, some pw, uo⟩) = _
                simp [register, hv, hpw, hf2]
        · have hr : register hash now db (some ⟨some em, some pw, uo⟩) =
              ((400, Resp.err "Invalid email format"), db) := by
            simp [register, hv]
          rw [hr]
          exact ⟨Or.inr ⟨rfl, rfl⟩, fun h => absurd h hmiss,
            fun _ _ _ _ _ _ _ => ⟨rfl, rfl⟩, fun h => by simp at h⟩

/-- Witness for C1: on an empty store, a body with a missing email field
is rejected unchanged, a weak password is rejected unchanged, registering
`a@b.com` succeeds, and an immediate second registration of the same body
fails with 400 "User already exists" leaving the store as after the
first call. -/
theorem register_atomic_witness :
    (register (fun p => p) 0 ⟨[], 1⟩
        (some ⟨some "a@b.com", some "Abc12345!", none⟩)).1.1 = 201
    ∧ register (fun p => p) 0 ⟨[], 1⟩ (some ⟨none, some "Abc12345!", none⟩) =
        ((400, Resp.err "Email and password required"), ⟨[], 1⟩)
    ∧ ((register (fun p => p) 0 ⟨[], 1⟩
          (some ⟨some "a@b.com", some "weak", none⟩)).1.1 = 400
        ∧ (register (fun p => p) 0 ⟨[], 1⟩
            (some ⟨some "a@b.com", some "weak", none⟩)).2 = ⟨[], 1⟩)
    ∧ register (fun p => p) 0
        (register (fun p => p) 0 ⟨[], 1⟩
          (some ⟨some "a@b.com", some "Abc12345!", none⟩)).2
        (some ⟨some "a@b.com", some "Abc12345!", none⟩) =
      ((400, Resp.err "User already exists"),
        (register (fun p => p) 0 ⟨[], 1⟩
          (some ⟨some "a@b.com", some "Abc12345!", none⟩)).2) :=
  ⟨by decide,
   (register_atomic (fun p => p) 0 ⟨[], 1⟩
      (some ⟨none, some "Abc12345!", none⟩)).2.1
      (Or.inr ⟨⟨none, some "Abc12345!", none⟩, rfl, Or.inl rfl⟩),
   (register_atomic (fun p => p) 0 ⟨[], 1⟩
      (some ⟨some "a@b.com", some "weak", none⟩)).2.2.1
      ⟨some "a@b.com", some "weak", none⟩ "a@b.com" "weak" rfl rfl rfl
      (Or.inr (Or.inl (by decide))),
   (register_atomic (fun p => p) 0 ⟨[], 1⟩
      (some ⟨some "a@b.com", some "Abc12345!", none⟩)).2.2.2 (by decide)⟩

/-- C2: login does not permit user enumeration — a login for an email
with no stored user and a login for a stored user whose password check
fails return the identical 401 body "Invalid credentials". -/
theorem login_no_enumeration (check : String → String → Bool)
    (mkTok : Nat → String) (db : Db) (em1 pw1 em2 pw2 : String) (u : User)
    (h1 : findByEmail db (sanitize_input em1) = none)
    (h2 : findByEmail db (sanitize_input em2) = some u)
    (h3 : check u.password pw2 = false) :
    login check mkTok db (some ⟨some em1, some pw1, none⟩) =
        (401, Resp.err "Invalid credentials")
    ∧ login check mkTok db (some ⟨some em2, some pw2, none⟩) =
        (401, Resp.err "Invalid credentials") := by
  constructor
  · simp [login, h1]
  · simp [login, h2, h3]

/-- Witness for C2: a store with one user; a login with an unknown email
and one with the stored email but failing password check both produce the
same 401 body. -/
theorem login_no_enumeration_witness :
    login (fun _ _ => false) (fun _ => "tok")
        ⟨[⟨1, "test@example.com", "HASH", "testuser", 0⟩], 2⟩
        (some ⟨some "ghost@example.com", some "pw1", none⟩) =
      (401, Resp.err "Invalid credentials")
    ∧ login (fun _ _ => false) (fun _ => "tok")
        ⟨[⟨1, "test@example.com", "HASH", "testuser", 0⟩], 2⟩
        (some ⟨some "test@example.com", some "pw2", none⟩) =
      (401, Resp.err "Invalid credentials") :=
  login_no_enumeration (fun _ _ => false) (fun _ => "tok")
    ⟨[⟨1, "test@example.com", "HASH", "testuser", 0⟩], 2⟩
    "ghost@example.com" "pw1" "test@example.com" "pw2"
    ⟨1, "test@example.com", "HASH", "testuser", 0⟩ (by decide) (by decide) rfl

/-- C10: a login request with a missing body or missing email or password
field yields 400 "Email and password required" — for every store and
every password-check function, so no lookup or verification influences
the outcome — and not the 401 "Invalid credentials" body. -/
theorem login_missing_fields (check : String → String → Bool)
    (mkTok : Nat → String) (db : Db) (d : ReqData) :
    login check mkTok db none = (400, Resp.err "Email and password required")
    ∧ (d.email? = none ∨ d.password? = none →
        login check mkTok db (some d) = (400, Resp.err "Email and password required")) := by
  refine ⟨rfl, ?_⟩
  obtain ⟨eo, po, uo⟩ := d
  rintro (h | h)
  · simp only [ReqData.email?] at h
    subst h
    cases po <;> rfl
  · simp only [ReqData.password?] at h
    subst h
    cases eo <;> rfl

/-- Witness for C10: a body with a password but no email field gets the
400 response even on a store and check function that would accept
anything. -/
theorem login_missing_fields_witness :
    login (fun _ _ => true) (fun _ => "tok") ⟨[], 1⟩
        (some ⟨none, some "pw", none⟩) =
      (400, Resp.err "Email and password required") :=
  (login_missing_fields (fun _ _ => true) (fun _ => "tok") ⟨[], 1⟩
    ⟨none, some "pw", none⟩).2 (Or.inl rfl)

/-- C4 counterexample: `register` persists the supplied username without
sanitizing it — registering with username `"<script>x</script>"` stores
exactly that string, which differs from its sanitized form. -/
theorem register_username_cex :
    (register (fun p => p) 0 ⟨[], 1⟩
        (some ⟨some "a@b.com", some "Abc12345!", some "<script>x</script>"⟩)).2.users =
      [⟨1, "a@b.com", "Abc12345!", "<script>x</script>", 0⟩]
    ∧ sanitize_input "<script>x</script>" ≠ "<script>x</script>" := by
  constructor <;> decide

/-- C4 (amended): on a successful registration the stored username is the
supplied username verbatim (not sanitized); when the field is absent it
defaults to the local-part of the sanitized email. -/
theorem register_username_unsanitized (hash : String → String) (now : Nat)
    (db : Db) (d : ReqData) (em pw : String)
    (he : d.email? = some em) (hp : d.password? = some pw)
    (h201 : (register hash now db (some d)).1.1 = 201) :
    (register hash now db (some d)).2.users =
      db.users ++
        [{ id := db.nextId, email := sanitize_input em, password := hash pw,
           username := d.username?.getD (localPart (sanitize_input em)),
           created_at := now }] := by
  obtain ⟨eo, po, uo⟩ := d
  simp only [ReqData.email?] at he
  simp only [ReqData.password?] at hp
  subst he; subst hp
  by_cases hv : validate_email (sanitize_input em) = true
  · rcases hpw : validate_password pw with ⟨b, m⟩
    cases b with
    | false => simp [register, hv, hpw] at h201
    | true =>
      cases hf : findByEmail db (sanitize_input em) with
      | some u => simp [register, hv, hpw, hf] at h201
      | none =>
        rw [register_success hash now db em pw uo hv (by rw [hpw]) hf]
  · simp [register, hv] at h201

/-- Witness for C4 (amended): concrete successful registration carrying a
markup username; the stored record holds it verbatim. -/
theorem register_username_unsanitized_witness :
    (register (fun p => p) 0 ⟨[], 1⟩
        (some ⟨some "a@b.com", some "Abc12345!", some "<script>x</script>"⟩)).2.users =
      [] ++
        [{ id := 1, email := sanitize_input "a@b.com", password := "Abc12345!",
           username := (some "<script>x</script>").getD
             (localPart (sanitize_input "a@b.com")),
           created_at := 0 }] :=
  register_username_unsanitized (fun p => p) 0 ⟨[], 1⟩
    ⟨some "a@b.com", some "Abc12345!", some "<script>x</script>"⟩
    "a@b.com" "Abc12345!" rfl rfl (by decide)

/-- C6: profile update mutates only the username — for every run, ids,
emails, password hashes and creation times of all stored users are
unchanged; a supplied username whose sanitized form is shorter than 3
returns 400 with the store entirely unchanged; otherwise the sanitized
username is stored and the response carries the updated public fields. -/
theorem update_profile_frame (db : Db) (uid : Nat) (body : Option ReqData) :
    ((update_profile db uid body).2.nextId = db.nextId ∧
      (update_profile db uid body).2.users.map
          (fun v => (v.id, v.email, v.password, v.created_at)) =
        db.users.map (fun v => (v.id, v.email, v.password, v.created_at)))
    ∧ (∀ u d raw, findById db uid = some u → body = some d →
        d.username? = some raw → (sanitize_input raw).length < 3 →
        update_profile db uid body =
          ((400, Resp.err "Username must be at least 3 characters"), db))
    ∧ (∀ u d raw, findById db uid = some u → body = some d →
        d.username? = some raw → ¬ (sanitize_input raw).length < 3 →
        update_profile db uid body =
          ((200, Resp.profileOk u.id u.email (sanitize_input raw)),
            setUsername db uid (sanitize_input raw))) := by
  refine ⟨?_, ?_, ?_⟩
  · cases hf : findById db uid with
    | none => simp [update_profile, hf]
    | some u =>
      cases body with
      | none => simp [update_profile, hf]
      | some d =>
        cases hu : d.username? with
        | none => simp [update_profile, hf, hu]
        | some raw =>
          by_cases hlen : (sanitize_input raw).length < 3
          · simp [update_profile, hf, hu, hlen]
          · refine ⟨by simp [update_profile, hf, hu, hlen, setUsername], ?_⟩
            simp only [update_profile, hf, hu, hlen, if_false, setUsername]
            rw [List.map_map]
            refine List.map_congr_left fun v _ => ?_
            by_cases hid : v.id = uid <;> simp [hid]
  · rintro u d raw hf rfl hu hlen
    simp [update_profile, hf, hu, hlen]
  · rintro u d raw hf rfl hu hlen
    simp [update_profile, hf, hu, hlen]

/-- Witness for C6: a one-user store; updating with username `"ab"`
(too short after sanitization) returns 400 and leaves the store intact,
and updating with `"newname"` succeeds with the sanitized name stored. -/
theorem update_profile_frame_witness :
    update_profile ⟨[⟨1, "a@b.com", "HASH", "abc", 0⟩], 2⟩ 1
        (some ⟨none, none, some "ab"⟩) =
      ((400, Resp.err "Username must be at least 3 characters"),
        ⟨[⟨1, "a@b.com", "HASH", "abc", 0⟩], 2⟩)
    ∧ update_profile ⟨[⟨1, "a@b.com", "HASH", "abc", 0⟩], 2⟩ 1
        (some ⟨none, none, some "newname"⟩) =
      ((200, Resp.profileOk 1 "a@b.com" (sanitize_input "newname")),
        setUsername ⟨[⟨1, "a@b.com", "HASH", "abc", 0⟩], 2⟩ 1
          (sanitize_input "newname")) :=
  ⟨(update_profile_frame ⟨[⟨1, "a@b.com", "HASH", "abc", 0⟩], 2⟩ 1
      (some ⟨none, none, some "ab"⟩)).2.1
      ⟨1, "a@b.com", "HASH", "abc", 0⟩ ⟨none, none, some "ab"⟩ "ab"
      (by decide) rfl rfl (by decide),
   (update_profile_frame ⟨[⟨1, "a@b.com", "HASH", "abc", 0⟩], 2⟩ 1
      (some ⟨none, none, some "newname"⟩)).2.2
      ⟨1, "a@b.com", "HASH", "abc", 0⟩ ⟨none, none, some "newname"⟩ "newname"
      (by decide) rfl rfl (by decide)⟩

end DevSecOps
